import Mathlib

/-!
Shallow embedding of the basket-feasibility / assembly core of the
"Sistema ASA" repository (KauaGGurgel/acaosolidariaadventista).

The repository contains several near-duplicate front-end variants of the same
logic.  The claims reference three of them, embedded here in three namespaces:

* `ASA.App`  — `src/App.tsx` (its `BasketCalculator`, `stats`, `assemble`,
  and the pantry screen's `adjustQty`).  `src/unnamed/part_006` is a
  line-for-line duplicate of this logic.
* `ASA.P9`   — `src/unnamed/part_009` (`CestasManager`: `registerBasket`,
  `addItem`, `updateItemQtd`), whose persistence calls to the hosted
  database are modelled by explicit failure parameters.
* `ASA.P3`   — `src/unnamed/part_003` (`addItem` of its basket manager).

JavaScript numbers are modelled as exact integers (`ℤ`); every quantity the
claims are concerned with is integral, and all arithmetic performed by the
embedded code (`+`, `-`, `*`, `Math.floor` of a division with a positive
divisor, `Math.max`, comparisons) is exact on integers.  `Math.floor(a / b)`
for integers `a` and `b ≠ 0` is floored integer division, `Int.fdiv`.
-/

namespace ASA

namespace App

/-- Inventory item record, interface `InventoryItem` of `src/App.tsx`
(fields `id`, `name`, `quantity`, `unit`, `category`, `minThreshold`). -/
structure InventoryItem where
  id : String
  name : String
  quantity : ℤ
  unit : String
  category : String
  minThreshold : ℤ
deriving DecidableEq

/-- Recipe line, interface `BasketItemConfig` of `src/App.tsx`. -/
structure BasketItemConfig where
  itemId : String
  quantityRequired : ℤ
deriving DecidableEq

/-- Basket recipe, interface `BasketConfig` of `src/App.tsx`. -/
structure BasketConfig where
  name : String
  items : List BasketItemConfig
deriving DecidableEq

/-- Lookup `inventory.find(i => i.id === id)` (first match or `undefined`). -/
def findItem (inventory : List InventoryItem) (id : String) : Option InventoryItem :=
  inventory.find? (fun i => i.id == id)

/-- Stock read `const stock = inv?.quantity || 0` in `stats`: `0` when the
item is missing (and the falsy `0` maps to `0` as well). -/
def stockOf (inventory : List InventoryItem) (id : String) : ℤ :=
  match findItem inventory id with
  | some i => i.quantity
  | none => 0

/-- One entry of `stats.details` in the `BasketCalculator` of `src/App.tsx`. -/
structure Detail where
  itemId : String
  quantityRequired : ℤ
  name : String
  stock : ℤ
  possible : ℤ
deriving DecidableEq

/-- Body of `basketConfig.items.map(ci => ...)` inside `stats`:
`possible = ci.quantityRequired > 0 ? Math.floor(stock / ci.quantityRequired) : 9999`. -/
def mkDetail (inventory : List InventoryItem) (ci : BasketItemConfig) : Detail :=
  let stock := stockOf inventory ci.itemId
  { itemId := ci.itemId
    quantityRequired := ci.quantityRequired
    name := match findItem inventory ci.itemId with
            | some i => if i.name = "" then "?" else i.name
            | none => "?"
    stock := stock
    possible := if 0 < ci.quantityRequired then Int.fdiv stock ci.quantityRequired else 9999 }

/-- The `details` array of `stats`. -/
def statsDetails (inventory : List InventoryItem) (cfg : BasketConfig) : List Detail :=
  cfg.items.map (mkDetail inventory)

/-- Evaluation of `Math.min(...)` applied to a spread list; the `[]` case is
never reached by the code (it tests `details.length` first) and is mapped to
the same `0` the code returns for an empty recipe. -/
def minList : List ℤ → ℤ
  | [] => 0
  | x :: xs => xs.foldl min x

/-- The feasibility `stats.max = details.length ? Math.min(...details.map(d => d.possible)) : 0`
of `src/App.tsx` (identical in `src/unnamed/part_006`). -/
def statsMax (inventory : List InventoryItem) (cfg : BasketConfig) : ℤ :=
  minList ((statsDetails inventory cfg).map (fun d => d.possible))

/-- The feasibility function as the specification words it, for comparison
with `statsMax`: the minimum of `floor(currentQuantity / quantityRequired)`
over the recipe lines with `quantityRequired > 0`, and `0` for a recipe with
zero lines. -/
def specFeasibility (inventory : List InventoryItem) (cfg : BasketConfig) : ℤ :=
  if cfg.items = [] then 0
  else minList ((cfg.items.filter (fun ci => decide (0 < ci.quantityRequired))).map
    (fun ci => Int.fdiv (stockOf inventory ci.itemId) ci.quantityRequired))

/-- Component state touched by `assemble`: the `inventory` and `baskets`
React states of `src/App.tsx`. -/
structure CalcState where
  inventory : List InventoryItem
  baskets : ℤ
deriving DecidableEq

/-- The `assemble` handler of the `BasketCalculator` in `src/App.tsx`:
returns unchanged when `stats.max < 1`, otherwise decrements every inventory
item that has a recipe line by its `quantityRequired` (one basket) and
increments `baskets` by `1`. -/
def assemble (cfg : BasketConfig) (s : CalcState) : CalcState :=
  if statsMax s.inventory cfg < 1 then s
  else
    { inventory := s.inventory.map (fun invItem =>
        match cfg.items.find? (fun x => x.itemId == invItem.id) with
        | some ci => { invItem with quantity := invItem.quantity - ci.quantityRequired }
        | none => invItem)
      baskets := s.baskets + 1 }

/-- The `adjustQty` handler of the pantry screen in `src/App.tsx` (identical
in `src/unnamed/part_006`): sets `quantity` to `Math.max(0, quantity + delta)`
for the matching item.  There is no error outcome of any kind. -/
def adjustQty (inventory : List InventoryItem) (id : String) (delta : ℤ) : List InventoryItem :=
  inventory.map (fun i =>
    if i.id == id then { i with quantity := max 0 (i.quantity + delta) } else i)

end App

namespace P9

/-- Inventory row, type `EstoqueItem` of `src/unnamed/part_009`.  Fields not
read by the basket code carry their database defaults. -/
structure EstoqueItem where
  id : String
  nome : Option String := none
  categoria : Option String := none
  quantidade : ℤ := 0
  unidade : String := "unidade"
  validade : Option String := none
  status_conservacao : Option String := none
  codigo_barras : Option String := none
  minimo_alerta : Option ℤ := none
  data_entrada : Option String := none
  status : String := ""
  observacoes : Option String := none
  created_at : Option String := none
deriving DecidableEq

/-- Recipe line, type `BasketConfigItem` of `src/unnamed/part_009`. -/
structure BasketConfigItem where
  estoque_id : String
  nome : String
  quantidade : ℤ
  unidade : String := "unidade"
deriving DecidableEq

/-- Basket recipe, type `BasketConfig` of `src/unnamed/part_009`. -/
structure BasketConfig where
  name : String
  items : List BasketConfigItem
deriving DecidableEq

/-- Lookup `invById.get(id)` where `invById` is the memoised `Map` built by
inserting every inventory row keyed by `id`; a later row with a duplicate id
overwrites an earlier one, hence the recursion prefers the tail. -/
def invGet : List EstoqueItem → String → Option EstoqueItem
  | [], _ => none
  | i :: rest, id =>
      match invGet rest id with
      | some r => some r
      | none => if i.id == id then some i else none

/-- Quantity read `Number(inv?.quantidade ?? 0)` against the `invById` map. -/
def qtyOf (inventory : List EstoqueItem) (id : String) : ℤ :=
  match invGet inventory id with
  | some i => i.quantidade
  | none => 0

/-- Effect of `supabase.from("estoque").update({ quantidade: q, ... }).eq("id", id)`:
every row whose `id` matches is set to the new quantity. -/
def setQty (inventory : List EstoqueItem) (id : String) (q : ℤ) : List EstoqueItem :=
  inventory.map (fun i => if i.id == id then { i with quantidade := q } else i)

/-- Whether the table has a row with the given id. -/
def hasRow (inventory : List EstoqueItem) (id : String) : Bool :=
  inventory.any (fun i => i.id == id)

/-- One entry of the `needed` array built by `registerBasket`:
`{ id, nome, need: quantidade * n, have: Number(inv?.quantidade ?? 0) }`. -/
structure Needed where
  id : String
  nome : String
  need : ℤ
  haveAmt : ℤ
deriving DecidableEq

/-- The `needed` array of `registerBasket`, one row per recipe line, with
`have` read from the inventory snapshot. -/
def computeNeeded (inventory : List EstoqueItem) (items : List BasketConfigItem) (n : ℤ) :
    List Needed :=
  items.map (fun it =>
    { id := it.estoque_id
      nome := it.nome
      need := it.quantidade * n
      haveAmt := qtyOf inventory it.estoque_id })

/-- The clamp `const n = Math.max(1, Number(qtdCestas || 1))`: the falsy `0`
becomes `1`, then negative values are raised to `1`. -/
def clampN (qtdCestas : ℤ) : ℤ :=
  max 1 (if qtdCestas = 0 then 1 else qtdCestas)

/-- Outcome of `registerBasket`, by which `setErr` or `setOk` call it ends in. -/
inductive RegisterResult where
  | errReadOnly : RegisterResult
  | errNoItems : RegisterResult
  | errInsufficient : List Needed → RegisterResult
  | errUpdateFailed : String → RegisterResult
  | errCounterFailed : RegisterResult
  | ok : ℤ → RegisterResult
deriving DecidableEq

/-- The "Baixa automática" loop of `registerBasket`: for each `needed` row,
`current` is read from `invById` — the memoised snapshot of the inventory
taken *before* the loop started, not the partially-updated table — and the
row is updated to `current - need`.  A failing update (modelled by
`updateFails`) leaves its row unchanged and aborts the loop, returning the
updates already committed. -/
def applyLoop (updateFails : String → Bool) (snapshot : List EstoqueItem) :
    List Needed → List EstoqueItem → List EstoqueItem × Option String
  | [], db => (db, none)
  | it :: rest, db =>
      if updateFails it.id then (db, some it.nome)
      else applyLoop updateFails snapshot rest
        (setQty db it.id (qtyOf snapshot it.id - it.need))

/-- Persisted state mutated by `registerBasket`: the `estoque` table and the
`assembled_baskets` configuration row. -/
structure LedgerState where
  inventory : List EstoqueItem
  assembledBaskets : ℤ
deriving DecidableEq

/-- The `registerBasket` handler of `CestasManager` in `src/unnamed/part_009`.
Database failures are modelled explicitly: `updateFails id` says whether the
stock update for row `id` errors, `counterFails` whether the
`assembled_baskets` upsert errors.  Control flow mirrors the source: the
read-only guard, the clamp of `qtdCestas`, the empty-recipe guard, the batch
insufficient-stock validation against the snapshot, the per-row decrement
loop (aborting on the first failing update, keeping earlier updates), and
finally the counter upsert (whose failure keeps all decrements but leaves the
counter unchanged). -/
def registerBasket (updateFails : String → Bool) (counterFails : Bool) (canEdit : Bool)
    (qtdCestas : ℤ) (cfg : BasketConfig) (s : LedgerState) :
    LedgerState × RegisterResult :=
  if !canEdit then (s, .errReadOnly)
  else
    let n := clampN qtdCestas
    if cfg.items = [] then (s, .errNoItems)
    else
      let needed := computeNeeded s.inventory cfg.items n
      let insufficient := needed.filter (fun x => decide (x.haveAmt < x.need))
      if 0 < insufficient.length then (s, .errInsufficient insufficient)
      else
        match applyLoop updateFails s.inventory needed s.inventory with
        | (db, some nome) => ({ s with inventory := db }, .errUpdateFailed nome)
        | (db, none) =>
            if counterFails then ({ s with inventory := db }, .errCounterFailed)
            else ({ inventory := db, assembledBaskets := s.assembledBaskets + n }, .ok n)

/-- The `addItem` handler of `CestasManager` in `src/unnamed/part_009`:
no-op on an empty selection or an unknown id; duplicate ids are rejected with
an error message and the configuration is left unchanged; otherwise the line
is appended (with the falsy quantity `0` replaced by `1`). -/
def addItem (inventory : List EstoqueItem) (newItemId : String) (newItemQtd : ℤ)
    (cfg : BasketConfig) : BasketConfig × Option String :=
  if newItemId = "" then (cfg, none)
  else
    match invGet inventory newItemId with
    | none => (cfg, none)
    | some inv =>
        if cfg.items.any (fun x => x.estoque_id == newItemId) then
          (cfg, some "Este item já está na configuração da cesta.")
        else
          ({ cfg with items := cfg.items ++
              [{ estoque_id := inv.id
                 nome := inv.nome.getD "Item"
                 quantidade := if newItemQtd = 0 then 1 else newItemQtd
                 unidade := if inv.unidade = "" then "unidade" else inv.unidade }] },
           none)

/-- The `updateItemQtd` handler of `CestasManager` in `src/unnamed/part_009`:
sets `quantidade` of the matching lines to `Number(qtd)` — any value,
negative included, with no validation and no error outcome. -/
def updateItemQtd (cfg : BasketConfig) (id : String) (qtd : ℤ) : BasketConfig :=
  { cfg with items := cfg.items.map (fun it =>
      if it.estoque_id == id then { it with quantidade := qtd } else it) }

end P9

namespace P3

/-- The `addItem` handler of the basket manager in `src/unnamed/part_003`
(its `InventoryItem` and `BasketConfig` types are field-for-field the ones of
`src/App.tsx`, so those are reused): appends a line for `inventory[0]` with
`quantityRequired = 1`, with no duplicate check of any kind; the only guard
is the falsy test on `inventory[0]?.id`. -/
def addItem (inventory : List App.InventoryItem) (cfg : App.BasketConfig) :
    App.BasketConfig :=
  match inventory.head? with
  | none => cfg
  | some first =>
      if first.id = "" then cfg
      else { cfg with items := cfg.items ++ [{ itemId := first.id, quantityRequired := 1 }] }

end P3

/-- Glue for the cross-variant claims: the ledger row as stored by the hosted
database, seen through the field names of `src/App.tsx` on one side and of
`src/unnamed/part_009` on the other. -/
def toEstoque (i : App.InventoryItem) : P9.EstoqueItem :=
  { id := i.id, nome := some i.name, quantidade := i.quantity, unidade := i.unit }

/-- Glue for the cross-variant claims: the same recipe line under the two
variants' field names. -/
def toBC (ci : App.BasketItemConfig) : P9.BasketConfigItem :=
  { estoque_id := ci.itemId, nome := "", quantidade := ci.quantityRequired }

/-- Glue for the cross-variant claims: a whole recipe. -/
def toCfg (cfg : App.BasketConfig) : P9.BasketConfig :=
  { name := cfg.name, items := cfg.items.map toBC }

end ASA

namespace ASA

namespace App

/-! ### Helper lemmas on the minimum of a list -/

lemma foldl_min_le_init (xs : List ℤ) (a : ℤ) : xs.foldl min a ≤ a := by
  induction xs generalizing a with
  | nil => exact le_rfl
  | cons x xs ih =>
      exact le_trans (ih (min a x)) (min_le_left a x)

lemma foldl_min_le_mem (xs : List ℤ) (a b : ℤ) (hb : b ∈ xs) : xs.foldl min a ≤ b := by
  induction xs generalizing a with
  | nil => cases hb
  | cons x xs ih =>
      rcases List.mem_cons.mp hb with h | h
      · subst h
        exact le_trans (foldl_min_le_init xs (min a b)) (min_le_right a b)
      · exact ih (min a x) h

lemma foldl_min_mem (xs : List ℤ) (a : ℤ) : xs.foldl min a = a ∨ xs.foldl min a ∈ xs := by
  induction xs generalizing a with
  | nil => exact Or.inl rfl
  | cons x xs ih =>
      rcases ih (min a x) with h | h
      · rcases le_total a x with hax | hxa
        · left
          rw [List.foldl_cons, h, min_eq_left hax]
        · right
          rw [List.foldl_cons, h, min_eq_right hxa]
          exact List.mem_cons_self x xs
      · exact Or.inr (List.mem_cons_of_mem x h)

lemma minList_le_of_mem {xs : List ℤ} {b : ℤ} (hb : b ∈ xs) : minList xs ≤ b := by
  cases xs with
  | nil => cases hb
  | cons x xs =>
      rcases List.mem_cons.mp hb with h | h
      · subst h
        exact foldl_min_le_init xs b
      · exact foldl_min_le_mem xs x b h

lemma minList_mem {xs : List ℤ} (h : xs ≠ []) : minList xs ∈ xs := by
  cases xs with
  | nil => exact absurd rfl h
  | cons x xs =>
      rcases foldl_min_mem xs x with h1 | h1
      · rw [minList, h1]
        exact List.mem_cons_self x xs
      · exact List.mem_cons_of_mem x (by rw [minList]; exact h1)

lemma minList_mixed {P B : List ℤ} (hsub : ∀ b ∈ B, b ∈ P)
    (hcov : ∀ x ∈ P, x ∈ B ∨ x = 9999) (hBne : B ≠ []) (hB : minList B ≤ 9999) :
    minList P = minList B := by
  have hPne : P ≠ [] := List.ne_nil_of_mem (hsub _ (minList_mem hBne))
  have h1 : minList P ≤ minList B := minList_le_of_mem (hsub _ (minList_mem hBne))
  have h2 : minList B ≤ minList P := by
    rcases hcov _ (minList_mem hPne) with hmB | h9999
    · exact minList_le_of_mem hmB
    · rw [h9999]; exact hB
  exact le_antisymm h1 h2

end App

end ASA

namespace ASA

namespace App

/-! ### Lemmas about the feasibility computation of src/App.tsx -/

lemma mkDetail_possible (inventory : List InventoryItem) (ci : BasketItemConfig) :
    (mkDetail inventory ci).possible =
      if 0 < ci.quantityRequired then
        Int.fdiv (stockOf inventory ci.itemId) ci.quantityRequired
      else 9999 := rfl

lemma mkDetail_stock (inventory : List InventoryItem) (ci : BasketItemConfig) :
    (mkDetail inventory ci).stock = stockOf inventory ci.itemId := rfl

lemma stockOf_nonneg {inventory : List InventoryItem} (id : String)
    (hpos : ∀ i ∈ inventory, 0 ≤ i.quantity) : 0 ≤ stockOf inventory id := by
  unfold stockOf findItem
  cases hfind : inventory.find? (fun i => i.id == id) with
  | none => exact le_rfl
  | some i => exact hpos i (List.mem_of_find?_eq_some hfind)

lemma possible_nonneg {inventory : List InventoryItem} (ci : BasketItemConfig)
    (hpos : ∀ i ∈ inventory, 0 ≤ i.quantity) : 0 ≤ (mkDetail inventory ci).possible := by
  rw [mkDetail_possible]
  by_cases h : 0 < ci.quantityRequired
  · rw [if_pos h]
    exact Int.fdiv_nonneg (stockOf_nonneg ci.itemId hpos) (le_of_lt h)
  · rw [if_neg h]
    norm_num

lemma possible_mem_possList {inventory : List InventoryItem} {cfg : BasketConfig}
    {ci : BasketItemConfig} (hci : ci ∈ cfg.items) :
    (mkDetail inventory ci).possible ∈ (statsDetails inventory cfg).map (fun d => d.possible) :=
  List.mem_map_of_mem _ (List.mem_map_of_mem _ hci)

lemma statsMax_le_possible {inventory : List InventoryItem} {cfg : BasketConfig}
    {ci : BasketItemConfig} (hci : ci ∈ cfg.items) :
    statsMax inventory cfg ≤ (mkDetail inventory ci).possible :=
  minList_le_of_mem (possible_mem_possList hci)

lemma statsMax_attained {inventory : List InventoryItem} {cfg : BasketConfig}
    (hne : cfg.items ≠ []) :
    ∃ ci ∈ cfg.items, statsMax inventory cfg = (mkDetail inventory ci).possible := by
  have hPne : (statsDetails inventory cfg).map (fun d => d.possible) ≠ [] := by
    unfold statsDetails
    simpa using hne
  have hmem := minList_mem hPne
  rcases List.mem_map.mp hmem with ⟨d, hd, hval⟩
  rcases List.mem_map.mp hd with ⟨ci, hci, hdet⟩
  exact ⟨ci, hci, by rw [statsMax, ← hval, ← hdet]⟩

lemma statsMax_empty (inventory : List InventoryItem) {cfg : BasketConfig}
    (h : cfg.items = []) : statsMax inventory cfg = 0 := by
  unfold statsMax statsDetails
  rw [h]
  rfl

lemma statsMax_nonneg {inventory : List InventoryItem} (cfg : BasketConfig)
    (hpos : ∀ i ∈ inventory, 0 ≤ i.quantity) : 0 ≤ statsMax inventory cfg := by
  by_cases hne : cfg.items = []
  · rw [statsMax_empty inventory hne]
  · rcases @statsMax_attained inventory cfg hne with ⟨ci, _, hval⟩
    rw [hval]
    exact possible_nonneg ci hpos

lemma possList_eq_of_all_bounding {inventory : List InventoryItem}
    (items : List BasketItemConfig) (h : ∀ ci ∈ items, 0 < ci.quantityRequired) :
    (items.map (mkDetail inventory)).map (fun d => d.possible)
      = (items.filter (fun ci => decide (0 < ci.quantityRequired))).map
          (fun ci => Int.fdiv (stockOf inventory ci.itemId) ci.quantityRequired) := by
  induction items with
  | nil => rfl
  | cons x xs ih =>
      have hx : 0 < x.quantityRequired := h x (List.mem_cons_self x xs)
      have hxs : ∀ ci ∈ xs, 0 < ci.quantityRequired :=
        fun ci hci => h ci (List.mem_cons_of_mem x hci)
      simp only [List.map_cons, List.filter_cons, decide_eq_true hx, if_pos,
        mkDetail_possible, ih hxs]
      rw [if_pos hx]

lemma statsMax_eq_spec {inventory : List InventoryItem} {cfg : BasketConfig}
    (h : ∀ ci ∈ cfg.items, 0 < ci.quantityRequired) :
    statsMax inventory cfg = specFeasibility inventory cfg := by
  by_cases hne : cfg.items = []
  · rw [statsMax_empty inventory hne, specFeasibility, if_pos hne]
  · rw [statsMax, specFeasibility, if_neg hne, statsDetails,
      possList_eq_of_all_bounding cfg.items h]

lemma boundingFloors_subset_possList {inventory : List InventoryItem}
    (items : List BasketItemConfig) (b : ℤ)
    (hb : b ∈ (items.filter (fun ci => decide (0 < ci.quantityRequired))).map
        (fun ci => Int.fdiv (stockOf inventory ci.itemId) ci.quantityRequired)) :
    b ∈ (items.map (mkDetail inventory)).map (fun d => d.possible) := by
  rcases List.mem_map.mp hb with ⟨ci, hcif, hval⟩
  rcases List.mem_filter.mp hcif with ⟨hci, hqb⟩
  have hq : 0 < ci.quantityRequired := of_decide_eq_true hqb
  have : (mkDetail inventory ci).possible = b := by
    rw [mkDetail_possible, if_pos hq, hval]
  rw [← this]
  exact List.mem_map_of_mem _ (List.mem_map_of_mem _ hci)

lemma possList_covered {inventory : List InventoryItem}
    (items : List BasketItemConfig) (x : ℤ)
    (hx : x ∈ (items.map (mkDetail inventory)).map (fun d => d.possible)) :
    x ∈ (items.filter (fun ci => decide (0 < ci.quantityRequired))).map
        (fun ci => Int.fdiv (stockOf inventory ci.itemId) ci.quantityRequired) ∨ x = 9999 := by
  rcases List.mem_map.mp hx with ⟨d, hd, hval⟩
  rcases List.mem_map.mp hd with ⟨ci, hci, hdet⟩
  by_cases hq : 0 < ci.quantityRequired
  · left
    rw [← hval, ← hdet, mkDetail_possible, if_pos hq]
    exact List.mem_map_of_mem _ (List.mem_filter.mpr ⟨hci, decide_eq_true hq⟩)
  · right
    rw [← hval, ← hdet, mkDetail_possible, if_neg hq]

end App

end ASA

namespace ASA

namespace P9

/-! ### Lemmas about the persistence model of src/unnamed/part_009 -/

lemma invGet_eq_none {inventory : List EstoqueItem} {id : String}
    (h : ∀ i ∈ inventory, i.id ≠ id) : invGet inventory id = none := by
  induction inventory with
  | nil => rfl
  | cons i rest ih =>
      have hi : i.id ≠ id := h i (List.mem_cons_self i rest)
      have hrest := ih (fun j hj => h j (List.mem_cons_of_mem i hj))
      unfold invGet
      rw [hrest]
      simp [hi]

lemma invGet_id {inventory : List EstoqueItem} {id : String} {r : EstoqueItem}
    (h : invGet inventory id = some r) : r.id = id := by
  induction inventory with
  | nil => cases h
  | cons i rest ih =>
      unfold invGet at h
      cases hrest : invGet rest id with
      | some r2 =>
          rw [hrest] at h
          cases h
          exact ih hrest
      | none =>
          rw [hrest] at h
          by_cases hi : i.id == id
          · rw [if_pos hi] at h
            cases h
            exact eq_of_beq hi
          · rw [if_neg hi] at h
            cases h

lemma hasRow_eq_false_of_invGet_none {inventory : List EstoqueItem} {id : String}
    (h : invGet inventory id = none) : hasRow inventory id = false := by
  induction inventory with
  | nil => rfl
  | cons i rest ih =>
      unfold invGet at h
      cases hrest : invGet rest id with
      | some r =>
          rw [hrest] at h
          cases h
      | none =>
          rw [hrest] at h
          by_cases hi : i.id == id
          · rw [if_pos hi] at h
            cases h
          · rw [if_neg hi] at h
            have := ih hrest
            unfold hasRow at this ⊢
            simp only [List.any_cons, this, hi]
            rfl

lemma invGet_of_hasRow {inventory : List EstoqueItem} {id : String}
    (h : hasRow inventory id = true) : ∃ r, invGet inventory id = some r := by
  cases hg : invGet inventory id with
  | some r => exact ⟨r, rfl⟩
  | none =>
      rw [hasRow_eq_false_of_invGet_none hg] at h
      cases h

lemma invGet_map {inventory : List EstoqueItem} (f : EstoqueItem → EstoqueItem)
    (hf : ∀ i, (f i).id = i.id) (id : String) :
    invGet (inventory.map f) id = (invGet inventory id).map f := by
  induction inventory with
  | nil => rfl
  | cons i rest ih =>
      simp only [List.map_cons]
      unfold invGet
      rw [ih]
      cases hrest : invGet rest id with
      | some r => rfl
      | none =>
          simp only [Option.map_none]
          rw [hf i]
          by_cases hi : i.id == id
          · rw [if_pos hi, if_pos hi]
            rfl
          · rw [if_neg hi, if_neg hi]
            rfl

lemma hasRow_setQty (inventory : List EstoqueItem) (id : String) (q : ℤ) (id2 : String) :
    hasRow (setQty inventory id q) id2 = hasRow inventory id2 := by
  unfold hasRow setQty
  rw [List.any_map]
  congr 1
  funext i
  by_cases hi : (i.id == id) = true <;> simp [Function.comp, hi]

lemma qtyOf_setQty_self {inventory : List EstoqueItem} {id : String} (q : ℤ)
    (h : hasRow inventory id = true) : qtyOf (setQty inventory id q) id = q := by
  rcases invGet_of_hasRow h with ⟨r, hr⟩
  have hrid : r.id = id := invGet_id hr
  unfold qtyOf setQty
  rw [invGet_map (fun i => if i.id == id then { i with quantidade := q } else i)
    (fun i => by by_cases hi : (i.id == id) = true <;> simp [hi]) id, hr]
  rw [Option.map_some']
  rw [if_pos (show (r.id == id) = true from beq_iff_eq.mpr hrid)]

lemma qtyOf_setQty_other {inventory : List EstoqueItem} {id id2 : String} (q : ℤ)
    (h : id2 ≠ id) : qtyOf (setQty inventory id q) id2 = qtyOf inventory id2 := by
  unfold qtyOf setQty
  rw [invGet_map (fun i => if i.id == id then { i with quantidade := q } else i)
    (fun i => by by_cases hi : (i.id == id) = true <;> simp [hi]) id2]
  cases hg : invGet inventory id2 with
  | none => rfl
  | some r =>
      have hrid : r.id = id2 := invGet_id hg
      have hno : ¬((r.id == id) = true) := by
        intro hc
        exact h (by rw [← hrid]; exact eq_of_beq hc)
      rw [Option.map_some', if_neg hno]

lemma applyLoop_noFail (snapshot : List EstoqueItem) (needed : List Needed)
    (db : List EstoqueItem) :
    applyLoop (fun _ => false) snapshot needed db
      = (needed.foldl (fun acc it => setQty acc it.id (qtyOf snapshot it.id - it.need)) db,
         none) := by
  induction needed generalizing db with
  | nil => rfl
  | cons it rest ih =>
      unfold applyLoop
      rw [if_neg (by simp)]
      rw [ih]
      rfl

lemma applyLoop_none_qty (updateFails : String → Bool) (snapshot : List EstoqueItem) :
    ∀ (needed : List Needed) (db db2 : List EstoqueItem),
      (needed.map (fun it => it.id)).Nodup →
      (∀ it ∈ needed, hasRow db it.id = true) →
      applyLoop updateFails snapshot needed db = (db2, none) →
      (∀ it ∈ needed, qtyOf db2 it.id = qtyOf snapshot it.id - it.need) ∧
      (∀ id : String, (∀ it ∈ needed, it.id ≠ id) → qtyOf db2 id = qtyOf db id) := by
  intro needed
  induction needed with
  | nil =>
      intro db db2 _ _ h
      unfold applyLoop at h
      cases h
      exact ⟨fun it hit => absurd hit (List.not_mem_nil it), fun id _ => rfl⟩
  | cons it rest ih =>
      intro db db2 hnodup hrows h
      unfold applyLoop at h
      by_cases hf : updateFails it.id
      · rw [if_pos hf] at h
        cases h
      · rw [if_neg hf] at h
        have hnodup2 : (rest.map (fun it => it.id)).Nodup :=
          (List.nodup_cons.mp hnodup).2
        have hnotin : it.id ∉ rest.map (fun it => it.id) :=
          (List.nodup_cons.mp hnodup).1
        have hrows2 : ∀ it2 ∈ rest,
            hasRow (setQty db it.id (qtyOf snapshot it.id - it.need)) it2.id = true := by
          intro it2 hit2
          rw [hasRow_setQty]
          exact hrows it2 (List.mem_cons_of_mem it hit2)
        rcases ih (setQty db it.id (qtyOf snapshot it.id - it.need)) db2 hnodup2 hrows2 h
          with ⟨hin, hout⟩
        constructor
        · intro it2 hit2
          rcases List.mem_cons.mp hit2 with hhead | htail
          · subst hhead
            have hne : ∀ it3 ∈ rest, it3.id ≠ it2.id := by
              intro it3 hit3 heq
              exact hnotin (heq ▸ List.mem_map_of_mem (fun it => it.id) hit3)
            rw [hout it2.id hne]
            exact qtyOf_setQty_self _ (hrows it2 (List.mem_cons_self it2 rest))
          · exact hin it2 htail
        · intro id hid
          have hne : it.id ≠ id := hid it (List.mem_cons_self it rest)
          rw [hout id (fun it2 hit2 => hid it2 (List.mem_cons_of_mem it hit2))]
          exact qtyOf_setQty_other _ (Ne.symm hne)

end P9

/-! ### Bridge between the two variants' views of the same ledger -/

lemma invGet_map_toEstoque {inventory : List App.InventoryItem} (id : String)
    (hnodup : (inventory.map (fun i => i.id)).Nodup) :
    P9.invGet (inventory.map toEstoque) id = (App.findItem inventory id).map toEstoque := by
  induction inventory with
  | nil => rfl
  | cons i rest ih =>
      have hnodup2 : (rest.map (fun i => i.id)).Nodup := (List.nodup_cons.mp hnodup).2
      have hnotin : i.id ∉ rest.map (fun i => i.id) := (List.nodup_cons.mp hnodup).1
      simp only [List.map_cons]
      unfold P9.invGet
      rw [ih hnodup2]
      by_cases hi : (i.id == id) = true
      · have hid : i.id = id := eq_of_beq hi
        have hnone : App.findItem rest id = none := by
          unfold App.findItem
          apply List.find?_eq_none.mpr
          intro j hj hbeq
          exact hnotin (hid ▸ (eq_of_beq hbeq) ▸ List.mem_map_of_mem (fun i => i.id) hj)
        rw [hnone]
        unfold App.findItem
        rw [List.find?_cons, hi]
        have hc : ((toEstoque i).id == id) = true := hi
        rw [hc]
        rfl
      · have hif : (i.id == id) = false := by simpa using hi
        unfold App.findItem
        rw [List.find?_cons, hif]
        cases hg : List.find? (fun j => j.id == id) rest with
        | some r => rfl
        | none =>
            have hc : ((toEstoque i).id == id) = false := hif
            rw [hc]
            rfl

lemma qtyOf_map_toEstoque {inventory : List App.InventoryItem} (id : String)
    (hnodup : (inventory.map (fun i => i.id)).Nodup) :
    P9.qtyOf (inventory.map toEstoque) id = App.stockOf inventory id := by
  unfold P9.qtyOf App.stockOf
  rw [invGet_map_toEstoque id hnodup]
  cases App.findItem inventory id with
  | none => rfl
  | some i => rfl

end ASA

namespace ASA

/-! ### Concrete fixtures used by witnesses and counterexamples -/

/-- The ledger of the specification's concrete scenario: Rice 10, Beans 4. -/
def riceInv : List App.InventoryItem :=
  [⟨"arroz", "Arroz", 10, "kg", "alimento", 2⟩,
   ⟨"feijao", "Feijão", 4, "kg", "alimento", 2⟩]

/-- The recipe of the specification's concrete scenario: 2 Rice and 1 Beans per basket. -/
def riceCfg : App.BasketConfig :=
  ⟨"Cesta Básica", [⟨"arroz", 2⟩, ⟨"feijao", 1⟩]⟩

/-- A ledger holding 20000 units of one item. -/
def bigInv : List App.InventoryItem :=
  [⟨"arroz", "Arroz", 20000, "kg", "alimento", 2⟩]

/-- A recipe with one bounding line and one line with `quantityRequired = 0`. -/
def zeroLineCfg : App.BasketConfig :=
  ⟨"Cesta", [⟨"arroz", 1⟩, ⟨"feijao", 0⟩]⟩

/-- A ledger holding 12000 units of one item. -/
def medInv : List App.InventoryItem :=
  [⟨"arroz", "Arroz", 12000, "kg", "alimento", 2⟩]

/-- A recipe with one bounding line and a zero line on a soap item. -/
def soapZeroCfg : App.BasketConfig :=
  ⟨"Cesta", [⟨"arroz", 1⟩, ⟨"sabao", 0⟩]⟩

/-- The specification's recipe extended with a zero line. -/
def riceSoapCfg : App.BasketConfig :=
  ⟨"Cesta", [⟨"arroz", 2⟩, ⟨"feijao", 1⟩, ⟨"sabao", 0⟩]⟩

/-! ### C1 -/

/-- C1 (counterexample): on the ledger with 20000 units of rice and the
recipe with lines Rice:1 and Beans:0, the minimum over the bounding lines
prescribed by the claim is 20000, but the code's feasibility is 9999: the
zero-required line enters the minimum as the sentinel `9999` instead of
being excluded. -/
theorem C1_counterexample :
    App.specFeasibility bigInv zeroLineCfg = 20000 ∧
    App.statsMax bigInv zeroLineCfg = 9999 ∧
    App.statsMax bigInv zeroLineCfg ≠ App.specFeasibility bigInv zeroLineCfg := by
  decide

/-- C1 (amended): whenever every recipe line has `quantityRequired > 0`,
the code's feasibility equals the claimed minimum of
`floor(currentQuantity / quantityRequired)` over the lines; a recipe with
zero lines yields 0 regardless of the ledger; and the Rice/Beans scenario
returns 4.  (Lines with `quantityRequired ≤ 0` instead contribute the
sentinel 9999 to the minimum, see the counterexample.) -/
theorem C1_feasibility_formula (inventory : List App.InventoryItem) (cfg : App.BasketConfig)
    (h : ∀ ci ∈ cfg.items, 0 < ci.quantityRequired) :
    App.statsMax inventory cfg = App.specFeasibility inventory cfg ∧
    (cfg.items = [] → App.statsMax inventory cfg = 0) ∧
    App.statsMax riceInv riceCfg = 4 :=
  ⟨App.statsMax_eq_spec h, fun he => App.statsMax_empty inventory he, by decide⟩

/-- C1 witness: the amended theorem applied to the Rice/Beans scenario. -/
theorem C1_feasibility_formula_witness :
    App.statsMax riceInv riceCfg = App.specFeasibility riceInv riceCfg ∧
    (riceCfg.items = [] → App.statsMax riceInv riceCfg = 0) ∧
    App.statsMax riceInv riceCfg = 4 :=
  C1_feasibility_formula riceInv riceCfg (by decide)

/-! ### C7 -/

/-- C7 (counterexample): with ledger Rice:12000 and recipe Rice:1, Soap:0,
the minimum over the remaining bounding lines is 12000, yet the code returns
9999 — the `quantityRequired == 0` line does impose an upper bound, namely
the sentinel 9999, so it is not excluded from the minimum. -/
theorem C7_counterexample :
    (∃ ci ∈ soapZeroCfg.items, ci.quantityRequired = 0) ∧
    App.specFeasibility medInv soapZeroCfg = 12000 ∧
    App.statsMax medInv soapZeroCfg = 9999 ∧
    App.statsMax medInv soapZeroCfg ≠ App.specFeasibility medInv soapZeroCfg := by
  decide

/-- C7 (amended): a line with `quantityRequired == 0` contributes the
sentinel `9999` to the minimum rather than being excluded; consequently it
imposes no bound — and the result equals the minimum over the bounding
lines — exactly when that bounding minimum is at most 9999 (and some
bounding line exists). -/
theorem C7_zero_line_sentinel (inventory : List App.InventoryItem) (cfg : App.BasketConfig)
    (ci : App.BasketItemConfig) (hmem : ci ∈ cfg.items) (h0 : ci.quantityRequired = 0)
    (cj : App.BasketItemConfig) (hjmem : cj ∈ cfg.items) (hj : 0 < cj.quantityRequired)
    (hle : App.specFeasibility inventory cfg ≤ 9999) :
    (App.mkDetail inventory ci).possible = 9999 ∧
    App.statsMax inventory cfg ≤ 9999 ∧
    App.statsMax inventory cfg = App.specFeasibility inventory cfg := by
  have hposs : (App.mkDetail inventory ci).possible = 9999 := by
    rw [App.mkDetail_possible, if_neg (by rw [h0]; exact lt_irrefl 0)]
  have hne : cfg.items ≠ [] := List.ne_nil_of_mem hmem
  have hBne : (cfg.items.filter (fun ci => decide (0 < ci.quantityRequired))).map
      (fun ci => Int.fdiv (App.stockOf inventory ci.itemId) ci.quantityRequired) ≠ [] :=
    List.ne_nil_of_mem (List.mem_map_of_mem _
      (List.mem_filter.mpr ⟨hjmem, decide_eq_true hj⟩))
  have hspec : App.specFeasibility inventory cfg
      = App.minList ((cfg.items.filter (fun ci => decide (0 < ci.quantityRequired))).map
          (fun ci => Int.fdiv (App.stockOf inventory ci.itemId) ci.quantityRequired)) := by
    rw [App.specFeasibility, if_neg hne]
  refine ⟨hposs, ?_, ?_⟩
  · calc App.statsMax inventory cfg ≤ (App.mkDetail inventory ci).possible :=
        App.statsMax_le_possible hmem
    _ = 9999 := hposs
  · rw [hspec]
    rw [hspec] at hle
    exact App.minList_mixed (App.boundingFloors_subset_possList cfg.items)
      (App.possList_covered cfg.items) hBne hle

/-- C7 witness: the amended theorem applied to the Rice/Beans ledger with
the recipe Rice:2, Beans:1, Soap:0, whose bounding minimum is 4. -/
theorem C7_zero_line_sentinel_witness :
    (App.mkDetail riceInv ⟨"sabao", 0⟩).possible = 9999 ∧
    App.statsMax riceInv riceSoapCfg ≤ 9999 ∧
    App.statsMax riceInv riceSoapCfg = App.specFeasibility riceInv riceSoapCfg :=
  C7_zero_line_sentinel riceInv riceSoapCfg ⟨"sabao", 0⟩ (by decide) rfl
    ⟨"arroz", 2⟩ (by decide) (by decide) (by decide)

/-! ### C8 -/

/-- C8: a recipe line with `quantityRequired > 0` whose `stockItemId` is not
in the ledger is treated as having stock 0, its `possible` is 0, and with a
non-negative ledger the whole feasibility is exactly 0; the computation is a
total function, so it returns normally. -/
theorem C8_missing_item_bounds_to_zero (inventory : List App.InventoryItem)
    (cfg : App.BasketConfig) (ci : App.BasketItemConfig)
    (hmem : ci ∈ cfg.items) (hq : 0 < ci.quantityRequired)
    (hmiss : App.findItem inventory ci.itemId = none)
    (hpos : ∀ i ∈ inventory, 0 ≤ i.quantity) :
    (App.mkDetail inventory ci).stock = 0 ∧
    (App.mkDetail inventory ci).possible = 0 ∧
    App.statsMax inventory cfg = 0 := by
  have hstock : App.stockOf inventory ci.itemId = 0 := by
    unfold App.stockOf
    rw [hmiss]
  have hposs : (App.mkDetail inventory ci).possible = 0 := by
    rw [App.mkDetail_possible, if_pos hq, hstock, Int.zero_fdiv]
  refine ⟨by rw [App.mkDetail_stock, hstock], hposs, ?_⟩
  refine le_antisymm ?_ (App.statsMax_nonneg cfg hpos)
  calc App.statsMax inventory cfg ≤ (App.mkDetail inventory ci).possible :=
      App.statsMax_le_possible hmem
  _ = 0 := hposs

/-- C8 witness: a recipe line for rice, quantity 2 per basket, over a ledger
that holds only beans. -/
theorem C8_missing_item_bounds_to_zero_witness :
    (App.mkDetail [⟨"feijao", "Feijão", 4, "kg", "alimento", 2⟩] ⟨"arroz", 2⟩).stock = 0 ∧
    (App.mkDetail [⟨"feijao", "Feijão", 4, "kg", "alimento", 2⟩] ⟨"arroz", 2⟩).possible = 0 ∧
    App.statsMax [⟨"feijao", "Feijão", 4, "kg", "alimento", 2⟩] ⟨"Cesta", [⟨"arroz", 2⟩]⟩ = 0 :=
  C8_missing_item_bounds_to_zero [⟨"feijao", "Feijão", 4, "kg", "alimento", 2⟩]
    ⟨"Cesta", [⟨"arroz", 2⟩]⟩ ⟨"arroz", 2⟩ (by decide) (by decide) (by decide) (by decide)

end ASA

namespace ASA

namespace App

lemma stockOf_adjustQty (inventory : List InventoryItem) (id : String) (delta : ℤ)
    (i : InventoryItem) (hfind : findItem inventory id = some i) :
    stockOf (adjustQty inventory id delta) id = max 0 (i.quantity + delta) := by
  induction inventory with
  | nil => cases hfind
  | cons j rest ih =>
      unfold findItem at hfind
      simp only [List.find?_cons] at hfind
      by_cases hj : (j.id == id) = true
      · rw [hj] at hfind
        cases hfind
        have hid : i.id = id := eq_of_beq hj
        subst hid
        simp [stockOf, findItem, adjustQty, List.find?_cons]
      · have hjf : (j.id == id) = false := by simpa using hj
        rw [hjf] at hfind
        have := ih hfind
        simp only [adjustQty, List.map_cons] at this ⊢
        simp only [stockOf, findItem, List.find?_cons] at this ⊢
        rw [if_neg hj]
        rw [hjf]
        exact this

end App

/-! ### C4 -/

/-- A one-item pantry holding 1 unit of rice. -/
def smallInv : List App.InventoryItem :=
  [⟨"arroz", "Arroz", 1, "kg", "alimento", 2⟩]

/-- C4 (counterexample): applying delta -5 to a quantity of 1 would make it
negative; the claim says the operation fails and leaves the quantity
unchanged, but `adjustQty` mutates the item to `Math.max(0, 1 - 5) = 0` —
a silent clamp to zero, with no error outcome (the function's only result is
the updated list). -/
theorem C4_counterexample :
    App.stockOf smallInv "arroz" = 1 ∧
    App.stockOf smallInv "arroz" + (-5) < 0 ∧
    App.adjustQty smallInv "arroz" (-5)
      = [⟨"arroz", "Arroz", 0, "kg", "alimento", 2⟩] ∧
    App.adjustQty smallInv "arroz" (-5) ≠ smallInv := by
  decide

/-- C4 (amended): `adjustQty` never fails and never rejects a delta: when
`quantity + delta < 0` it silently clamps the stored quantity to 0
(`Math.max(0, quantity + delta)`), so the quantity does change but never
becomes negative. -/
theorem C4_applyDelta_clamps (inventory : List App.InventoryItem) (id : String)
    (delta : ℤ) (i : App.InventoryItem)
    (hfind : App.findItem inventory id = some i) (hneg : i.quantity + delta < 0) :
    App.stockOf (App.adjustQty inventory id delta) id = 0 ∧
    0 ≤ App.stockOf (App.adjustQty inventory id delta) id := by
  have h := App.stockOf_adjustQty inventory id delta i hfind
  rw [h, max_eq_left (le_of_lt hneg)]
  exact ⟨rfl, le_rfl⟩

/-- C4 witness: the amended theorem applied to the one-item pantry with
delta -5. -/
theorem C4_applyDelta_clamps_witness :
    App.stockOf (App.adjustQty smallInv "arroz" (-5)) "arroz" = 0 ∧
    0 ≤ App.stockOf (App.adjustQty smallInv "arroz" (-5)) "arroz" :=
  C4_applyDelta_clamps smallInv "arroz" (-5) ⟨"arroz", "Arroz", 1, "kg", "alimento", 2⟩
    (by decide) (by decide)

/-! ### C6 -/

/-- A one-line recipe: 1 unit of rice per basket. -/
def oneLineCfg : P9.BasketConfig :=
  ⟨"Cesta", [⟨"arroz", "Arroz", 1, "kg"⟩]⟩

/-- A ledger state with 5 units of rice and counter 0. -/
def fiveSt : P9.LedgerState :=
  ⟨[{ id := "arroz", nome := some "Arroz", quantidade := 5, unidade := "kg" }], 0⟩

/-- C6 (counterexample): requesting -3 baskets is not rejected — there is no
`InvalidQuantityError` anywhere in the code — the request is clamped to 1
and the assembly proceeds: it succeeds, decrements the rice from 5 to 4 and
increments the counter, mutating state. -/
theorem C6_counterexample :
    (P9.registerBasket (fun _ => false) false true (-3) oneLineCfg fiveSt).2
      = P9.RegisterResult.ok 1 ∧
    P9.qtyOf (P9.registerBasket (fun _ => false) false true (-3) oneLineCfg fiveSt).1.inventory
      "arroz" = 4 ∧
    (P9.registerBasket (fun _ => false) false true (-3) oneLineCfg fiveSt).1.assembledBaskets
      = 1 ∧
    (P9.registerBasket (fun _ => false) false true (-3) oneLineCfg fiveSt).1 ≠ fiveSt := by
  decide

/-- C6 (amended): a requested count `n ≤ 0` is clamped to 1 by
`Math.max(1, Number(qtdCestas || 1))` and the attempt proceeds exactly as a
1-basket assembly; no error is raised on account of the requested count. -/
theorem C6_nonpositive_clamped (qtd : ℤ) (hqtd : qtd ≤ 0) (updateFails : String → Bool)
    (counterFails canEdit : Bool) (cfg : P9.BasketConfig) (s : P9.LedgerState) :
    P9.clampN qtd = 1 ∧
    P9.registerBasket updateFails counterFails canEdit qtd cfg s
      = P9.registerBasket updateFails counterFails canEdit 1 cfg s := by
  have h1 : P9.clampN qtd = 1 := by
    unfold P9.clampN
    by_cases h0 : qtd = 0
    · rw [if_pos h0]
      exact max_self 1
    · rw [if_neg h0]
      exact max_eq_left (le_trans hqtd zero_le_one)
  have h2 : P9.clampN (1 : ℤ) = 1 := by
    unfold P9.clampN
    rw [if_neg one_ne_zero]
    exact max_self 1
  refine ⟨h1, ?_⟩
  unfold P9.registerBasket
  rw [h1, h2]

/-- C6 witness: the amended theorem applied to the request of -3 baskets on
the five-rice ledger. -/
theorem C6_nonpositive_clamped_witness :
    P9.clampN (-3) = 1 ∧
    P9.registerBasket (fun _ => false) false true (-3) oneLineCfg fiveSt
      = P9.registerBasket (fun _ => false) false true 1 oneLineCfg fiveSt :=
  C6_nonpositive_clamped (-3) (by decide) (fun _ => false) false true oneLineCfg fiveSt

/-! ### C9 -/

/-- A one-item inventory for the duplicate-line scenarios. -/
def dupInv : List App.InventoryItem :=
  [⟨"arroz", "Arroz", 10, "kg", "alimento", 2⟩]

/-- The empty recipe the duplicate scenario starts from. -/
def emptyCfg : App.BasketConfig := ⟨"Cesta", []⟩

/-- C9 (counterexample): in the part_003 variant, `addItem` appends
`inventory[0]` unconditionally; clicking it twice from the empty recipe
yields two lines with the same `stockItemId`, so a configuration violating
the at-most-one-line-per-item invariant is reachable, and the second
`addItem` on an already-present id neither fails nor leaves the
configuration unchanged. -/
theorem C9_counterexample :
    (P3.addItem dupInv (P3.addItem dupInv emptyCfg)).items
      = [⟨"arroz", 1⟩, ⟨"arroz", 1⟩] ∧
    ¬ ((P3.addItem dupInv (P3.addItem dupInv emptyCfg)).items.map
        (fun it => it.itemId)).Nodup ∧
    P3.addItem dupInv (P3.addItem dupInv emptyCfg) ≠ P3.addItem dupInv emptyCfg := by
  decide

/-- C9 (amended): the part_009 variant's `addItem` does enforce the
invariant: adding a `stockItemId` already present in the configuration sets
the duplicate error message and leaves the configuration unchanged (there is
no `DuplicateLineError` type, only the message); but the part_003 variant
appends `inventory[0]` with no duplicate check, so duplicate lines are
reachable there (see the counterexample). -/
theorem C9_duplicate_rejected (inventory : List P9.EstoqueItem) (newItemId : String)
    (newItemQtd : ℤ) (cfg : P9.BasketConfig) (i : P9.EstoqueItem)
    (hne : ¬ newItemId = "") (hfound : P9.invGet inventory newItemId = some i)
    (hdup : cfg.items.any (fun x => x.estoque_id == newItemId) = true) :
    (P9.addItem inventory newItemId newItemQtd cfg).1 = cfg ∧
    (P9.addItem inventory newItemId newItemQtd cfg).2
      = some "Este item já está na configuração da cesta." := by
  unfold P9.addItem
  rw [if_neg hne, hfound]
  simp [hdup]

/-- C9 witness: adding rice to a recipe that already has a rice line, over a
ledger that has a rice row. -/
theorem C9_duplicate_rejected_witness :
    (P9.addItem fiveSt.inventory "arroz" 1 oneLineCfg).1 = oneLineCfg ∧
    (P9.addItem fiveSt.inventory "arroz" 1 oneLineCfg).2
      = some "Este item já está na configuração da cesta." :=
  C9_duplicate_rejected fiveSt.inventory "arroz" 1 oneLineCfg
    { id := "arroz", nome := some "Arroz", quantidade := 5, unidade := "kg" }
    (by decide) (by decide) (by decide)

end ASA

namespace ASA

/-! ### C10 -/

/-- A recipe with one bounding rice line only. -/
def oneRiceCfg : App.BasketConfig := ⟨"Cesta", [⟨"arroz", 1⟩]⟩

/-- The same recipe with an additional line whose quantity is negative. -/
def negLineCfg : App.BasketConfig := ⟨"Cesta", [⟨"arroz", 1⟩, ⟨"sabao", -1⟩]⟩

/-- A three-item pantry including soap. -/
def soapInv : List App.InventoryItem :=
  [⟨"arroz", "Arroz", 10, "kg", "alimento", 2⟩,
   ⟨"feijao", "Feijão", 4, "kg", "alimento", 2⟩,
   ⟨"sabao", "Sabão", 3, "unidade", "higiene", 1⟩]

/-- The specification's recipe extended with a negative soap line. -/
def negSoapCfg : App.BasketConfig :=
  ⟨"Cesta", [⟨"arroz", 2⟩, ⟨"feijao", 1⟩, ⟨"sabao", -1⟩]⟩

/-- The part_009 view of a recipe with a soap line to be updated. -/
def soapCfg9 : P9.BasketConfig :=
  ⟨"Cesta", [⟨"arroz", "Arroz", 2, "kg"⟩, ⟨"sabao", "Sabão", 1, "unidade"⟩]⟩

/-- C10 (counterexample): a line with negative `quantityRequired` is not
non-bounding — it contributes the sentinel 9999 to the minimum, so adding it
to a recipe whose bounding minimum is 20000 lowers the feasibility from
20000 to 9999. -/
theorem C10_counterexample :
    App.statsMax bigInv oneRiceCfg = 20000 ∧
    App.statsMax bigInv negLineCfg = 9999 ∧
    App.statsMax bigInv negLineCfg < App.statsMax bigInv oneRiceCfg := by
  decide

/-- C10 (amended): the update-line-quantity operation accepts any value,
negative included, with no error (the negative value is simply stored); a
line with negative `quantityRequired` contributes the sentinel `9999` to the
minimum (bounding the result by 9999, but never lowering it below 9999); and
a subsequent assembly adds `|quantityRequired|` to that item's stock instead
of subtracting. -/
theorem C10_negative_quantity (cfg9 : P9.BasketConfig) (lineId : String) (qtd : ℤ)
    (it : P9.BasketConfigItem) (hit : it ∈ cfg9.items) (hitid : it.estoque_id = lineId)
    (inventory : List App.InventoryItem) (cfg : App.BasketConfig)
    (ci : App.BasketItemConfig) (hci : ci ∈ cfg.items) (hq : ci.quantityRequired < 0)
    (b : ℤ) (i : App.InventoryItem) (hi : i ∈ inventory)
    (hfind : cfg.items.find? (fun x => x.itemId == i.id) = some ci)
    (hfeas : 1 ≤ App.statsMax inventory cfg) :
    { it with quantidade := qtd } ∈ (P9.updateItemQtd cfg9 lineId qtd).items ∧
    (App.mkDetail inventory ci).possible = 9999 ∧
    App.statsMax inventory cfg ≤ 9999 ∧
    { i with quantity := i.quantity + |ci.quantityRequired| }
      ∈ (App.assemble cfg ⟨inventory, b⟩).inventory := by
  have hposs : (App.mkDetail inventory ci).possible = 9999 := by
    rw [App.mkDetail_possible, if_neg (not_lt.mpr (le_of_lt hq))]
  refine ⟨?_, hposs, ?_, ?_⟩
  · simp only [P9.updateItemQtd]
    refine List.mem_map.mpr ⟨it, hit, ?_⟩
    rw [if_pos (show (it.estoque_id == lineId) = true from beq_iff_eq.mpr hitid)]
  · calc App.statsMax inventory cfg ≤ (App.mkDetail inventory ci).possible :=
        App.statsMax_le_possible hci
    _ = 9999 := hposs
  · unfold App.assemble
    rw [if_neg (not_lt.mpr hfeas)]
    refine List.mem_map.mpr ⟨i, hi, ?_⟩
    rw [hfind, abs_of_neg hq, ← sub_eq_add_neg]

/-- C10 witness: updating the soap line to -2 is accepted; with the recipe
Rice:2, Beans:1, Soap:-1 over the three-item pantry the soap line's
`possible` is 9999, feasibility is at most 9999, and one assembly raises the
soap stock from 3 to 3 + 1. -/
theorem C10_negative_quantity_witness :
    ({ estoque_id := "sabao", nome := "Sabão", quantidade := -2, unidade := "unidade" } :
        P9.BasketConfigItem) ∈ (P9.updateItemQtd soapCfg9 "sabao" (-2)).items ∧
    (App.mkDetail soapInv ⟨"sabao", -1⟩).possible = 9999 ∧
    App.statsMax soapInv negSoapCfg ≤ 9999 ∧
    (⟨"sabao", "Sabão", 3 + |(-1 : ℤ)|, "unidade", "higiene", 1⟩ : App.InventoryItem)
      ∈ (App.assemble negSoapCfg ⟨soapInv, 0⟩).inventory :=
  C10_negative_quantity soapCfg9 "sabao" (-2) ⟨"sabao", "Sabão", 1, "unidade"⟩
    (by decide) rfl soapInv negSoapCfg ⟨"sabao", -1⟩ (by decide) (by decide) 0
    ⟨"sabao", "Sabão", 3, "unidade", "higiene", 1⟩ (by decide) (by decide) (by decide)

/-! ### C2 -/

/-- An update-failure pattern: the beans row errors. -/
def failFeijao : String → Bool := fun id => id == "feijao"

/-- A two-line recipe: 1 rice and 1 beans per basket. -/
def twoLineCfg : P9.BasketConfig :=
  ⟨"Cesta", [⟨"arroz", "Arroz", 1, "kg"⟩, ⟨"feijao", "Feijão", 1, "kg"⟩]⟩

/-- A ledger state with 5 rice and 5 beans. -/
def twoSt : P9.LedgerState :=
  ⟨[{ id := "arroz", nome := some "Arroz", quantidade := 5, unidade := "kg" },
    { id := "feijao", nome := some "Feijão", quantidade := 5, unidade := "kg" }], 0⟩

/-- A ledger state with 0 rice. -/
def zeroSt : P9.LedgerState :=
  ⟨[{ id := "arroz", nome := some "Arroz", quantidade := 0, unidade := "kg" }], 3⟩

/-- C2 (counterexample): when the beans update fails mid-loop, the attempt
fails with the update error, yet the rice decrement already applied is kept:
rice went from 5 to 4, beans and the counter are unchanged, and nothing is
rolled back — the failed attempt's state differs from the initial state. -/
theorem C2_counterexample :
    (P9.registerBasket failFeijao false true 1 twoLineCfg twoSt).2
      = P9.RegisterResult.errUpdateFailed "Feijão" ∧
    P9.qtyOf (P9.registerBasket failFeijao false true 1 twoLineCfg twoSt).1.inventory
      "arroz" = 4 ∧
    P9.qtyOf twoSt.inventory "arroz" = 5 ∧
    P9.qtyOf (P9.registerBasket failFeijao false true 1 twoLineCfg twoSt).1.inventory
      "feijao" = 5 ∧
    (P9.registerBasket failFeijao false true 1 twoLineCfg twoSt).1.assembledBaskets = 0 ∧
    (P9.registerBasket failFeijao false true 1 twoLineCfg twoSt).1 ≠ twoSt := by
  decide

/-- C2 (amended): an assembly attempt that fails validation — read-only
mode, empty recipe, or insufficient stock on any line — leaves every stock
quantity and the counter exactly unchanged (the validation runs before any
write); but a failure during the apply phase is not rolled back: decrements
committed before the failing update remain (see the counterexample). -/
theorem C2_insufficient_unchanged (updateFails : String → Bool) (counterFails canEdit : Bool)
    (qtd : ℤ) (cfg : P9.BasketConfig) (s : P9.LedgerState) (sh : List P9.Needed)
    (h : (P9.registerBasket updateFails counterFails canEdit qtd cfg s).2
      = P9.RegisterResult.errInsufficient sh) :
    (P9.registerBasket updateFails counterFails canEdit qtd cfg s).1 = s := by
  simp only [P9.registerBasket] at h ⊢
  by_cases hce : (!canEdit) = true
  · rw [if_pos hce] at h
    exact absurd h (by simp)
  · rw [if_neg hce] at h ⊢
    by_cases hni : cfg.items = []
    · rw [if_pos hni] at h
      exact absurd h (by simp)
    · rw [if_neg hni] at h ⊢
      by_cases hlen : 0 < ((P9.computeNeeded s.inventory cfg.items (P9.clampN qtd)).filter
          (fun x => decide (x.haveAmt < x.need))).length
      · rw [if_pos hlen]
      · rw [if_neg hlen] at h
        cases happ : P9.applyLoop updateFails s.inventory
            (P9.computeNeeded s.inventory cfg.items (P9.clampN qtd)) s.inventory with
        | mk db ores =>
            rw [happ] at h
            cases ores with
            | some nome => exact absurd h (by simp)
            | none =>
                cases counterFails with
                | true => simp at h
                | false => simp at h

/-- C2 witness: requesting one basket of the one-rice-line recipe against a
ledger with 0 rice fails the stock validation and leaves the state equal to
the initial state. -/
theorem C2_insufficient_unchanged_witness :
    (P9.registerBasket (fun _ => false) false true 1 oneLineCfg zeroSt).1 = zeroSt :=
  C2_insufficient_unchanged (fun _ => false) false true 1 oneLineCfg zeroSt
    [⟨"arroz", "Arroz", 1, 0⟩] (by decide)

end ASA

namespace ASA

namespace P9

/-! ### Branch equations for registerBasket (canEdit = true) -/

lemma registerBasket_noItems (updateFails : String → Bool) (counterFails : Bool)
    (qtd : ℤ) (cfg : BasketConfig) (s : LedgerState) (hni : cfg.items = []) :
    registerBasket updateFails counterFails true qtd cfg s = (s, .errNoItems) := by
  simp only [registerBasket]
  rw [if_neg (by decide), if_pos hni]

lemma registerBasket_insufficient (updateFails : String → Bool) (counterFails : Bool)
    (qtd : ℤ) (cfg : BasketConfig) (s : LedgerState) (hni : cfg.items ≠ [])
    (hlen : 0 < ((computeNeeded s.inventory cfg.items (clampN qtd)).filter
        (fun x => decide (x.haveAmt < x.need))).length) :
    registerBasket updateFails counterFails true qtd cfg s
      = (s, .errInsufficient ((computeNeeded s.inventory cfg.items (clampN qtd)).filter
          (fun x => decide (x.haveAmt < x.need)))) := by
  simp only [registerBasket]
  rw [if_neg (by decide), if_neg hni, if_pos hlen]

lemma registerBasket_updateFailed (updateFails : String → Bool) (counterFails : Bool)
    (qtd : ℤ) (cfg : BasketConfig) (s : LedgerState) (db : List EstoqueItem) (nome : String)
    (hni : cfg.items ≠ [])
    (hlen : ¬ 0 < ((computeNeeded s.inventory cfg.items (clampN qtd)).filter
        (fun x => decide (x.haveAmt < x.need))).length)
    (happ : applyLoop updateFails s.inventory
        (computeNeeded s.inventory cfg.items (clampN qtd)) s.inventory = (db, some nome)) :
    registerBasket updateFails counterFails true qtd cfg s
      = ({ s with inventory := db }, .errUpdateFailed nome) := by
  simp only [registerBasket]
  rw [if_neg (by decide), if_neg hni, if_neg hlen, happ]

lemma registerBasket_counterFailed (updateFails : String → Bool)
    (qtd : ℤ) (cfg : BasketConfig) (s : LedgerState) (db : List EstoqueItem)
    (hni : cfg.items ≠ [])
    (hlen : ¬ 0 < ((computeNeeded s.inventory cfg.items (clampN qtd)).filter
        (fun x => decide (x.haveAmt < x.need))).length)
    (happ : applyLoop updateFails s.inventory
        (computeNeeded s.inventory cfg.items (clampN qtd)) s.inventory = (db, none)) :
    registerBasket updateFails true true qtd cfg s
      = ({ s with inventory := db }, .errCounterFailed) := by
  simp only [registerBasket]
  rw [if_neg (by decide), if_neg hni, if_neg hlen, happ]
  rfl

lemma registerBasket_ok (updateFails : String → Bool)
    (qtd : ℤ) (cfg : BasketConfig) (s : LedgerState) (db : List EstoqueItem)
    (hni : cfg.items ≠ [])
    (hlen : ¬ 0 < ((computeNeeded s.inventory cfg.items (clampN qtd)).filter
        (fun x => decide (x.haveAmt < x.need))).length)
    (happ : applyLoop updateFails s.inventory
        (computeNeeded s.inventory cfg.items (clampN qtd)) s.inventory = (db, none)) :
    registerBasket updateFails false true qtd cfg s
      = ({ inventory := db, assembledBaskets := s.assembledBaskets + clampN qtd },
         .ok (clampN qtd)) := by
  simp only [registerBasket]
  rw [if_neg (by decide), if_neg hni, if_neg hlen, happ]
  rfl

end P9

/-! ### C3 -/

/-- C3: a successful assembly (result `ok n`) with a well-formed recipe —
at most one line per stock item, every referenced row present in the table —
decrements every line's row by `quantidade * n`, increments the counter by
exactly `n` (with `n ≥ 1`), and leaves every other row's quantity unchanged. -/
theorem C3_success_deltas (updateFails : String → Bool) (counterFails : Bool) (qtd : ℤ)
    (cfg : P9.BasketConfig) (s : P9.LedgerState) (n : ℤ)
    (hnodup : (cfg.items.map (fun it => it.estoque_id)).Nodup)
    (hrows : ∀ it ∈ cfg.items, P9.hasRow s.inventory it.estoque_id = true)
    (hok : (P9.registerBasket updateFails counterFails true qtd cfg s).2
      = P9.RegisterResult.ok n) :
    1 ≤ n ∧
    (∀ it ∈ cfg.items,
      P9.qtyOf (P9.registerBasket updateFails counterFails true qtd cfg s).1.inventory
          it.estoque_id
        = P9.qtyOf s.inventory it.estoque_id - it.quantidade * n) ∧
    (P9.registerBasket updateFails counterFails true qtd cfg s).1.assembledBaskets
      = s.assembledBaskets + n ∧
    (∀ id : String, (∀ it ∈ cfg.items, it.estoque_id ≠ id) →
      P9.qtyOf (P9.registerBasket updateFails counterFails true qtd cfg s).1.inventory id
        = P9.qtyOf s.inventory id) := by
  by_cases hni : cfg.items = []
  · rw [P9.registerBasket_noItems updateFails counterFails qtd cfg s hni] at hok
    exact absurd hok (by simp)
  · by_cases hlen : 0 < ((P9.computeNeeded s.inventory cfg.items (P9.clampN qtd)).filter
        (fun x => decide (x.haveAmt < x.need))).length
    · rw [P9.registerBasket_insufficient updateFails counterFails qtd cfg s hni hlen] at hok
      exact absurd hok (by simp)
    · cases happ : P9.applyLoop updateFails s.inventory
          (P9.computeNeeded s.inventory cfg.items (P9.clampN qtd)) s.inventory with
      | mk db ores =>
          cases ores with
          | some nome =>
              rw [P9.registerBasket_updateFailed updateFails counterFails qtd cfg s db nome
                hni hlen happ] at hok
              exact absurd hok (by simp)
          | none =>
              cases counterFails with
              | true =>
                  rw [P9.registerBasket_counterFailed updateFails qtd cfg s db
                    hni hlen happ] at hok
                  exact absurd hok (by simp)
              | false =>
                  have heq := P9.registerBasket_ok updateFails qtd cfg s db hni hlen happ
                  rw [heq] at hok ⊢
                  have hn : P9.clampN qtd = n := by simpa using hok
                  subst hn
                  have hmapeq : ((P9.computeNeeded s.inventory cfg.items
                        (P9.clampN qtd)).map (fun x => x.id))
                      = cfg.items.map (fun it => it.estoque_id) := by
                    unfold P9.computeNeeded
                    rw [List.map_map]
                    rfl
                  have hrows2 : ∀ nit ∈ P9.computeNeeded s.inventory cfg.items
                      (P9.clampN qtd), P9.hasRow s.inventory nit.id = true := by
                    intro nit hnit
                    rcases List.mem_map.mp hnit with ⟨it, hit, rfl⟩
                    exact hrows it hit
                  obtain ⟨hin, hout⟩ := P9.applyLoop_none_qty updateFails s.inventory
                    (P9.computeNeeded s.inventory cfg.items (P9.clampN qtd)) s.inventory db
                    (by rw [hmapeq]; exact hnodup) hrows2 happ
                  refine ⟨le_max_left 1 _, ?_, rfl, ?_⟩
                  · intro it hit
                    exact hin _ (List.mem_map_of_mem _ hit)
                  · intro id hid
                    refine hout id ?_
                    intro nit hnit
                    rcases List.mem_map.mp hnit with ⟨it, hit, rfl⟩
                    exact hid it hit

/-- The Rice/Beans recipe as seen by the part_009 variant. -/
def riceCfg9 : P9.BasketConfig :=
  ⟨"Cesta Básica", [⟨"arroz", "Arroz", 2, "kg"⟩, ⟨"feijao", "Feijão", 1, "kg"⟩]⟩

/-- The Rice/Beans ledger as stored by the part_009 variant, with counter 7. -/
def riceSt9 : P9.LedgerState :=
  ⟨[{ id := "arroz", nome := some "Arroz", quantidade := 10, unidade := "kg" },
    { id := "feijao", nome := some "Feijão", quantidade := 4, unidade := "kg" }], 7⟩

/-- C3 witness: assembling 4 Rice/Beans baskets from Rice 10, Beans 4. -/
theorem C3_success_deltas_witness :
    1 ≤ (4 : ℤ) ∧
    (∀ it ∈ riceCfg9.items,
      P9.qtyOf (P9.registerBasket (fun _ => false) false true 4 riceCfg9 riceSt9).1.inventory
          it.estoque_id
        = P9.qtyOf riceSt9.inventory it.estoque_id - it.quantidade * 4) ∧
    (P9.registerBasket (fun _ => false) false true 4 riceCfg9 riceSt9).1.assembledBaskets
      = riceSt9.assembledBaskets + 4 ∧
    (∀ id : String, (∀ it ∈ riceCfg9.items, it.estoque_id ≠ id) →
      P9.qtyOf (P9.registerBasket (fun _ => false) false true 4 riceCfg9 riceSt9).1.inventory id
        = P9.qtyOf riceSt9.inventory id) :=
  C3_success_deltas (fun _ => false) false 4 riceCfg9 riceSt9 4
    (by decide) (by decide) (by decide)

end ASA

namespace ASA

/-! ### C5 -/

/-- A ledger with 0 rice under the App.tsx field names. -/
def zeroRiceInv : List App.InventoryItem :=
  [⟨"arroz", "Arroz", 0, "kg", "alimento", 2⟩]

/-- C5 (counterexample): with recipe Rice:1 and 0 rice in stock, the
feasibility k is 0, but "assembling k baskets" does not succeed: requesting
0 baskets is clamped to 1 and the attempt fails with the insufficient-stock
error — there is no way to assemble 0 baskets successfully. -/
theorem C5_counterexample :
    App.statsMax zeroRiceInv oneRiceCfg = 0 ∧
    (P9.registerBasket (fun _ => false) false true 0 (toCfg oneRiceCfg)
        ⟨zeroRiceInv.map toEstoque, 0⟩).2
      = P9.RegisterResult.errInsufficient [⟨"arroz", "", 1, 0⟩] := by
  decide

/-- C5 (amended): the feasibility is non-negative on any non-negative
ledger; and for a nonempty recipe whose lines all have
`quantityRequired > 0`, with `k` the computed feasibility and no persistence
failures: if `k ≥ 1` then requesting `k` baskets succeeds with `ok k`, and
requesting `k + 1` baskets always fails with the insufficient-stock error
(the `k = 0` case cannot "succeed" because the count is clamped to 1 —
see the counterexample). -/
theorem C5_feasibility_bound (inventory : List App.InventoryItem) (cfg : App.BasketConfig)
    (c0 : ℤ)
    (hnodupInv : (inventory.map (fun i => i.id)).Nodup)
    (hpos : ∀ i ∈ inventory, 0 ≤ i.quantity)
    (hq : ∀ ci ∈ cfg.items, 0 < ci.quantityRequired)
    (hne : cfg.items ≠ []) :
    0 ≤ App.statsMax inventory cfg ∧
    (1 ≤ App.statsMax inventory cfg →
      (P9.registerBasket (fun _ => false) false true (App.statsMax inventory cfg) (toCfg cfg)
        ⟨inventory.map toEstoque, c0⟩).2
        = P9.RegisterResult.ok (App.statsMax inventory cfg)) ∧
    (∃ sh, sh ≠ [] ∧
      (P9.registerBasket (fun _ => false) false true (App.statsMax inventory cfg + 1)
        (toCfg cfg) ⟨inventory.map toEstoque, c0⟩).2
        = P9.RegisterResult.errInsufficient sh) := by
  have knonneg : 0 ≤ App.statsMax inventory cfg := App.statsMax_nonneg cfg hpos
  have hni9 : (toCfg cfg).items ≠ [] := by
    simp only [toCfg]
    simpa using hne
  have hstock : ∀ ci ∈ cfg.items,
      ci.quantityRequired * App.statsMax inventory cfg ≤ App.stockOf inventory ci.itemId := by
    intro ci hci
    have hqi := hq ci hci
    have h1 : App.statsMax inventory cfg ≤ (App.mkDetail inventory ci).possible :=
      App.statsMax_le_possible hci
    rw [App.mkDetail_possible, if_pos hqi, Int.fdiv_eq_ediv _ (le_of_lt hqi)] at h1
    have h2 := (Int.le_ediv_iff_mul_le hqi).mp h1
    calc ci.quantityRequired * App.statsMax inventory cfg
        = App.statsMax inventory cfg * ci.quantityRequired := mul_comm _ _
    _ ≤ App.stockOf inventory ci.itemId := h2
  refine ⟨knonneg, ?_, ?_⟩
  · intro hk
    have hclamp : P9.clampN (App.statsMax inventory cfg) = App.statsMax inventory cfg := by
      unfold P9.clampN
      rw [if_neg (by omega)]
      exact max_eq_right hk
    have hfilter : ((P9.computeNeeded (inventory.map toEstoque) (toCfg cfg).items
        (P9.clampN (App.statsMax inventory cfg))).filter
          (fun x => decide (x.haveAmt < x.need))) = [] := by
      rw [hclamp]
      apply List.filter_eq_nil_iff.mpr
      intro x hx
      simp only [toCfg, P9.computeNeeded, List.map_map, List.mem_map] at hx
      rcases hx with ⟨ci, hci, rfl⟩
      simp only [Function.comp_apply, decide_eq_true_eq, not_lt]
      show (toBC ci).quantidade * App.statsMax inventory cfg
          ≤ P9.qtyOf (inventory.map toEstoque) (toBC ci).estoque_id
      rw [qtyOf_map_toEstoque _ hnodupInv]
      exact hstock ci hci
    have hlen : ¬ 0 < ((P9.computeNeeded (inventory.map toEstoque) (toCfg cfg).items
        (P9.clampN (App.statsMax inventory cfg))).filter
          (fun x => decide (x.haveAmt < x.need))).length := by
      rw [hfilter]
      simp
    have happ := P9.applyLoop_noFail (inventory.map toEstoque)
      (P9.computeNeeded (inventory.map toEstoque) (toCfg cfg).items
        (P9.clampN (App.statsMax inventory cfg))) (inventory.map toEstoque)
    rw [P9.registerBasket_ok (fun _ => false) (App.statsMax inventory cfg) (toCfg cfg)
      ⟨inventory.map toEstoque, c0⟩ _ hni9 hlen happ, hclamp]
  · have hclamp1 : P9.clampN (App.statsMax inventory cfg + 1)
        = App.statsMax inventory cfg + 1 := by
      unfold P9.clampN
      rw [if_neg (by omega)]
      exact max_eq_right (by omega)
    rcases @App.statsMax_attained inventory cfg hne with ⟨ci0, hci0, hk0⟩
    have hq0 := hq ci0 hci0
    have hfd : Int.fdiv (App.stockOf inventory ci0.itemId) ci0.quantityRequired
        = App.statsMax inventory cfg := by
      rw [hk0, App.mkDetail_possible, if_pos hq0]
    have hlt : App.stockOf inventory ci0.itemId
        < ci0.quantityRequired * (App.statsMax inventory cfg + 1) := by
      by_contra hge
      push_neg at hge
      have h3 : App.statsMax inventory cfg + 1
          ≤ App.stockOf inventory ci0.itemId / ci0.quantityRequired :=
        (Int.le_ediv_iff_mul_le hq0).mpr (by rw [mul_comm]; exact hge)
      rw [← Int.fdiv_eq_ediv _ (le_of_lt hq0), hfd] at h3
      omega
    have hmem9 : toBC ci0 ∈ (toCfg cfg).items := List.mem_map_of_mem toBC hci0
    have hmemN : ({ id := (toBC ci0).estoque_id
                    nome := (toBC ci0).nome
                    need := (toBC ci0).quantidade * (App.statsMax inventory cfg + 1)
                    haveAmt := P9.qtyOf (inventory.map toEstoque) (toBC ci0).estoque_id } :
                  P9.Needed)
        ∈ P9.computeNeeded (inventory.map toEstoque) (toCfg cfg).items
            (App.statsMax inventory cfg + 1) := by
      unfold P9.computeNeeded
      exact List.mem_map_of_mem _ hmem9
    have hmemF : ({ id := (toBC ci0).estoque_id
                    nome := (toBC ci0).nome
                    need := (toBC ci0).quantidade * (App.statsMax inventory cfg + 1)
                    haveAmt := P9.qtyOf (inventory.map toEstoque) (toBC ci0).estoque_id } :
                  P9.Needed)
        ∈ (P9.computeNeeded (inventory.map toEstoque) (toCfg cfg).items
            (App.statsMax inventory cfg + 1)).filter
              (fun x => decide (x.haveAmt < x.need)) := by
      apply List.mem_filter.mpr
      refine ⟨hmemN, ?_⟩
      simp only [decide_eq_true_eq]
      show P9.qtyOf (inventory.map toEstoque) (toBC ci0).estoque_id
          < (toBC ci0).quantidade * (App.statsMax inventory cfg + 1)
      rw [qtyOf_map_toEstoque _ hnodupInv]
      exact hlt
    have hlenpos : 0 < ((P9.computeNeeded (inventory.map toEstoque) (toCfg cfg).items
        (P9.clampN (App.statsMax inventory cfg + 1))).filter
          (fun x => decide (x.haveAmt < x.need))).length := by
      rw [hclamp1]
      exact List.length_pos.mpr (List.ne_nil_of_mem hmemF)
    refine ⟨(P9.computeNeeded (inventory.map toEstoque) (toCfg cfg).items
        (P9.clampN (App.statsMax inventory cfg + 1))).filter
          (fun x => decide (x.haveAmt < x.need)), ?_, ?_⟩
    · rw [hclamp1]
      exact List.ne_nil_of_mem hmemF
    · rw [P9.registerBasket_insufficient (fun _ => false) false
        (App.statsMax inventory cfg + 1) (toCfg cfg) ⟨inventory.map toEstoque, c0⟩
        hni9 hlenpos]

/-- C5 witness: the amended theorem applied to the Rice/Beans scenario,
where the feasibility is 4. -/
theorem C5_feasibility_bound_witness :
    0 ≤ App.statsMax riceInv riceCfg ∧
    (1 ≤ App.statsMax riceInv riceCfg →
      (P9.registerBasket (fun _ => false) false true (App.statsMax riceInv riceCfg)
        (toCfg riceCfg) ⟨riceInv.map toEstoque, 7⟩).2
        = P9.RegisterResult.ok (App.statsMax riceInv riceCfg)) ∧
    (∃ sh, sh ≠ [] ∧
      (P9.registerBasket (fun _ => false) false true (App.statsMax riceInv riceCfg + 1)
        (toCfg riceCfg) ⟨riceInv.map toEstoque, 7⟩).2
        = P9.RegisterResult.errInsufficient sh) :=
  C5_feasibility_bound riceInv riceCfg 7 (by decide) (by decide) (by decide) (by decide)

end ASA
